import Mathlib

/-!
Verification of the calibration and digitization engine of the
Log-scale Graph Digitizer (a React/TypeScript single-page app).

The embedding follows the source files:
* `src/unnamed/part_001` — the main `App` component (v4.3): undo/redo history,
  background-image anchor/resize/wheel math, guide-line interpolation
  (`yAtX`/`xAtY`), preset load, and the `dataToPixel`/`pixelToData` transforms;
* `src/log-digitizer-vite/src/lib/coords.ts` — `makeScaler`, `makeCoordMap`;
* `src/log-digitizer-vite/src/lib/i2t.ts` — `integrateI2t`, `timeAtEqualI2t`;
* `src/log-digitizer-vite/src/lib/parse.ts` — `parseCsvToSamples`.

Exact state-machine and affine arithmetic (history, clamping, resize, I²t,
parsing) is modelled over `ℚ`, which makes it executable; the axis transforms
involve `log10`/`10^x` and are modelled over `ℝ` with `Real.logb` and `rpow`.
JavaScript division producing a non-finite number (NaN or ±Infinity) from a
zero denominator is modelled explicitly with `Option` where a claim depends
on it (`jsDiv`); everywhere else the relevant denominators are proved nonzero.
-/

/- ================================================================
   Scale clamp and background transform state (part_001)
   ================================================================ -/

/-- Scale clamp, part_001 line 178: `clampS = v => Math.max(0.05, Math.min(50, v))`. -/
def clampS (v : ℚ) : ℚ := max 0.05 (min 50 v)

/-- Background layer transform, part_001 line 17: `{sx, sy, offX, offY}`. -/
structure BgXf where
  sx : ℚ
  sy : ℚ
  offX : ℚ
  offY : ℚ
  deriving DecidableEq

/-- Data point in real units, part_001 line 14 (`Pt`), over ℚ for the exact
state machinery. -/
structure QPt where
  x : ℚ
  y : ℚ
  deriving DecidableEq

/-- Series, part_001 line 15. -/
structure Series where
  name : String
  color : String
  points : List QPt
  deriving DecidableEq

/-- Custom anchor, part_001 line 18: picked screen point `(ax, ay)` and
fractional position `(fx, fy)` inside the base rectangle. -/
structure CustomAnchor where
  ax : ℚ
  ay : ℚ
  fx : ℚ
  fy : ℚ
  deriving DecidableEq

/-- The full undo-able document, part_001 lines 21-27 (`AppState`).
Note the source type has no guide-line fields: `guideXs`/`guideYs` are
separate component state (part_001 lines 125-127). -/
structure AppState where
  xMin : ℚ
  xMax : ℚ
  yMin : ℚ
  yMax : ℚ
  xLog : Bool
  yLog : Bool
  series : List Series
  bgXform : BgXf × BgXf
  customAnchors : Option CustomAnchor × Option CustomAnchor
  deriving DecidableEq

/-- Initial document, part_001 lines 153-167 (the init effect). -/
def initState : AppState :=
  { xMin := 10, xMax := 1000000, yMin := 0.0001, yMax := 1000000
    xLog := true, yLog := true
    series := [⟨"A", "#2563EB", []⟩, ⟨"B", "#10B981", []⟩]
    bgXform := (⟨1, 1, 0, 0⟩, ⟨1, 1, 0, 0⟩)
    customAnchors := (none, none) }

instance : Inhabited AppState := ⟨initState⟩

/- ================================================================
   Undo/redo history store (part_001 lines 136-150)
   ================================================================ -/

/-- History store: `const [history, setHistory] = useState<AppState[]>([])`
plus `historyIndex`.  From the initialized state onwards the index never
goes below 0 (the undo handler is guarded), so the cursor is a `Nat`. -/
structure History (α : Type) where
  snapshots : List α
  cursor : Nat

/-- Initialization, part_001 line 167: `setHistory([init]); setHistoryIndex(0)`. -/
def initHistory {α : Type} (d : α) : History α := ⟨[d], 0⟩

/-- Commit/overwrite, part_001 lines 141-148:
`base = overwrite ? [] : prev.slice(0, historyIndex + 1);`
`next = updater(base[base.length - 1] || prev[0]);`
`history = [...base, next]; historyIndex = overwrite ? 0 : i + 1`.
The `|| prev[0]` fallback (only reachable when `base` is empty) is modelled
with `getLastD`/`headD`; from the initialized history `base` is nonempty
whenever `overwrite` is false. -/
def updateState {α : Type} [Inhabited α] (updater : α → α) (overwrite : Bool)
    (h : History α) : History α :=
  let base := if overwrite then [] else h.snapshots.take (h.cursor + 1)
  let next := updater (base.getLastD (h.snapshots.headD default))
  { snapshots := base ++ [next], cursor := if overwrite then 0 else h.cursor + 1 }

/-- Undo, part_001 line 149: `historyIndex > 0 && setHistoryIndex(historyIndex - 1)`. -/
def handleUndo {α : Type} (h : History α) : History α :=
  if 0 < h.cursor then { h with cursor := h.cursor - 1 } else h

/-- Redo, part_001 line 150:
`historyIndex < history.length - 1 && setHistoryIndex(historyIndex + 1)`. -/
def handleRedo {α : Type} (h : History α) : History α :=
  if h.cursor < h.snapshots.length - 1 then { h with cursor := h.cursor + 1 } else h

/-- Current document, part_001 line 139: `currentState = history[historyIndex]`
(`none` models JavaScript `undefined` for an out-of-range index). -/
def currentState {α : Type} (h : History α) : Option α := h.snapshots[h.cursor]?

/-- One user-level history operation (a commit through `updateState` with
`overwrite = false`, or the undo/redo buttons). -/
inductive HistOp (α : Type) where
  | commit (updater : α → α)
  | undo
  | redo

/-- Apply one history operation. -/
def applyHistOp {α : Type} [Inhabited α] : HistOp α → History α → History α
  | .commit u => updateState u false
  | .undo => handleUndo
  | .redo => handleRedo

/-- Run a sequence of history operations, left to right. -/
def runHistOps {α : Type} [Inhabited α] (ops : List (HistOp α)) (h : History α) :
    History α :=
  ops.foldl (fun h op => applyHistOp op h) h

/- ================================================================
   Guide lines live outside the history (part_001 lines 125-134, 1267-1283)
   ================================================================ -/

/-- Component-level state: the history plus the guide lists, which in the
source are independent `useState` cells (part_001 lines 125-127), not part
of `AppState`. -/
structure UIState where
  hist : History AppState
  guideXs : List ℚ
  guideYs : List ℚ

/-- Commit on the combined state: only the history changes. -/
def uiUpdateState (updater : AppState → AppState) (overwrite : Bool)
    (s : UIState) : UIState :=
  { s with hist := updateState updater overwrite s.hist }

/-- Undo button on the combined state, part_001 line 149. -/
def uiUndo (s : UIState) : UIState := { s with hist := handleUndo s.hist }

/-- Redo button on the combined state, part_001 line 150. -/
def uiRedo (s : UIState) : UIState := { s with hist := handleRedo s.hist }

/-- Guide add, part_001 line 1267/1269: on a parsed finite `n > 0`,
`setGuideXs(g => Array.from(new Set([...g, n])))` — append unless present
(the `Set` dedups, keeping first-occurrence order). No history commit. -/
def uiAddGuideX (v : ℚ) (s : UIState) : UIState :=
  if 0 < v then
    { s with guideXs := if v ∈ s.guideXs then s.guideXs else s.guideXs ++ [v] }
  else s

/-- Guide add on the y axis, part_001 line 1281/1283. -/
def uiAddGuideY (v : ℚ) (s : UIState) : UIState :=
  if 0 < v then
    { s with guideYs := if v ∈ s.guideYs then s.guideYs else s.guideYs ++ [v] }
  else s

/- ================================================================
   Anchor-relative draw rectangle and resize (part_001 lines 210-238, 810-850)
   ================================================================ -/

/-- Resize/drag handles, part_001 line 16. -/
inductive Handle where
  | none
  | left
  | right
  | top
  | bottom
  | uniform
  deriving DecidableEq

/-- Rectangle on the drawing surface (pixel units), over ℚ. -/
structure QRect where
  x : ℚ
  y : ℚ
  w : ℚ
  h : ℚ
  deriving DecidableEq

/-- The resize session captured at mousedown, part_001 line 119 / 871:
anchor position, anchor fractions and base size. -/
structure ResizeSession where
  ax : ℚ
  ay : ℚ
  fx : ℚ
  fy : ℚ
  baseW : ℚ
  baseH : ℚ
  deriving DecidableEq

/-- The result of `drawRectAndAnchor`, part_001 lines 220-238. -/
structure DrawRect where
  dx : ℚ
  dy : ℚ
  dw : ℚ
  dh : ℚ
  ax : ℚ
  ay : ℚ
  fx : ℚ
  fy : ℚ
  baseW : ℚ
  baseH : ℚ
  deriving DecidableEq

/-- Draw rectangle and anchor, part_001 lines 220-238, in the app's fixed
`anchorMode === "custom"` branch (`anchorMode` is a constant `useState`,
line 113): with no picked anchor the default anchor is the base rect's
bottom-left `(fx, fy) = (0, 1)`; `offX`/`offY` are added to the anchor. -/
def drawRectAndAnchor (base : QRect) (xf : BgXf) (ca : Option CustomAnchor) :
    DrawRect :=
  let dw := base.w * clampS xf.sx
  let dh := base.h * clampS xf.sy
  let dax := match ca with
    | some c => c.ax
    | Option.none => base.x
  let day := match ca with
    | some c => c.ay
    | Option.none => base.y + base.h
  let ax := dax + xf.offX
  let ay := day + xf.offY
  let fx := match ca with
    | some c => c.fx
    | Option.none => 0
  let fy := match ca with
    | some c => c.fy
    | Option.none => 1
  ⟨ax - fx * dw, ay - fy * dh, dw, dh, ax, ay, fx, fy, base.w, base.h⟩

/-- Division guard in the resize branch, part_001 line 812:
`safe = v => (Math.abs(v) < 1e-6 ? 1e-6 : v)`. -/
def safe (v : ℚ) : ℚ := if |v| < 1e-6 then 1e-6 else v

/-- New width/height demanded by the pointer, part_001 lines 813-824.
`none` models the JavaScript `undefined` of an unset `dw`/`dh`. -/
def resizeDims (mode : Handle) (keepAspect : Bool) (s : ResizeSession)
    (px py : ℚ) : Option ℚ × Option ℚ :=
  match mode with
  | .right => (some ((px - s.ax) / safe (1 - s.fx)), Option.none)
  | .left => (some ((s.ax - px) / safe s.fx), Option.none)
  | .bottom => (Option.none, some ((py - s.ay) / safe (1 - s.fy)))
  | .top => (Option.none, some ((s.ay - py) / safe s.fy))
  | .uniform =>
    let dwX := if s.ax ≤ px then (px - s.ax) / safe (1 - s.fx)
               else (s.ax - px) / safe s.fx
    let dhY := if s.ay ≤ py then (py - s.ay) / safe (1 - s.fy)
               else (s.ay - py) / safe s.fy
    if keepAspect then
      let r := max (dwX / s.baseW) (dhY / s.baseH)
      (some (s.baseW * r), some (s.baseH * r))
    else (some dwX, some dhY)
  | .none => (Option.none, Option.none)

/-- The scale update of part_001 lines 826-827:
`nsx = dw ? clampS(dw / baseW) : cur.sx` — JavaScript truthiness, so an
unset (`undefined`) or zero `dw` keeps the current scale. -/
def truthyClampScale (cur : ℚ) (d : Option ℚ) (base : ℚ) : ℚ :=
  match d with
  | some dd => if dd = 0 then cur else clampS (dd / base)
  | Option.none => cur

/-- One resize update, part_001 lines 826-834: `nsx`/`nsy` via
`truthyClampScale`, then
`{...xf, sx: keepAspect ? nsx : nsx, sy: keepAspect ? nsx : nsy}` —
the source writes `nsx` in both branches of the `sx` conditional. -/
def applyResizeStep (mode : Handle) (keepAspect : Bool) (s : ResizeSession)
    (px py : ℚ) (xf : BgXf) : BgXf :=
  let dwdh := resizeDims mode keepAspect s px py
  let nsx := truthyClampScale xf.sx dwdh.1 s.baseW
  let nsy := truthyClampScale xf.sy dwdh.2 s.baseH
  { xf with sx := if keepAspect then nsx else nsx
            sy := if keepAspect then nsx else nsy }

/-- One wheel-zoom update, part_001 line 1174:
`k = deltaY < 0 ? 1.05 : 0.95; nsx = clampS(sx*k);`
`nsy = clampS(sy*(keepAspect?k:k)); sx = nsx; sy = keepAspect ? nsx : nsy`. -/
def applyWheelStep (zoomIn : Bool) (keepAspect : Bool) (xf : BgXf) : BgXf :=
  let k : ℚ := if zoomIn then 1.05 else 0.95
  let nsx := clampS (xf.sx * k)
  let nsy := clampS (xf.sy * (if keepAspect then k else k))
  { xf with sx := nsx, sy := if keepAspect then nsx else nsy }

/-- One drag update, part_001 lines 838-845: offsets only, scales untouched. -/
def applyDragStep (startX startY baseX baseY px py : ℚ) (xf : BgXf) : BgXf :=
  { xf with offX := baseX + (px - startX), offY := baseY + (py - startY) }

/-- Both scale factors of a layer transform are inside the clamp range. -/
def ScaleInv (xf : BgXf) : Prop :=
  0.05 ≤ xf.sx ∧ xf.sx ≤ 50 ∧ 0.05 ≤ xf.sy ∧ xf.sy ≤ 50

instance (xf : BgXf) : Decidable (ScaleInv xf) := by
  unfold ScaleInv; infer_instance

/- ================================================================
   Preset load (part_001 lines 917-955)
   ================================================================ -/

/-- Axes block of a parsed preset; `none` models a missing JSON field. -/
structure PresetAxes where
  xMin : Option ℚ
  xMax : Option ℚ
  yMin : Option ℚ
  yMax : Option ℚ
  xLog : Bool
  yLog : Bool

/-- One series entry of a parsed preset. -/
structure PresetSeriesEntry where
  name : Option String
  color : Option String
  points : Option (List QPt)

/-- Background block of a parsed preset. -/
structure PresetBg where
  xform : Option (BgXf × BgXf)
  customAnchors : Option (Option CustomAnchor × Option CustomAnchor)

/-- A parsed preset payload (the fields `applyPreset` reads into the
document). -/
structure Preset where
  axes : Option PresetAxes
  series : Option (List PresetSeriesEntry)
  bg : Option PresetBg

/-- The `next` document built by `applyPreset`, part_001 lines 919-933.
`p.axes?.xMin ?? 10` and friends become `bind`/`getD`; `!!p.axes?.xLog`
is `false` when `axes` is missing.  `p.series ?? currentState.series` is
mapped through per-entry defaults; on the `currentState.series` branch that
map is the identity (every field is already present), so it is written as
`cur.series`.  Note `p.bg?.xform ?? currentState.bgXform` is copied with no
clamping of `sx`/`sy`. -/
def applyPresetNext (p : Preset) (cur : AppState) : AppState :=
  { xMin := (p.axes.bind (fun a => a.xMin)).getD 10
    xMax := (p.axes.bind (fun a => a.xMax)).getD 1000000
    yMin := (p.axes.bind (fun a => a.yMin)).getD 0.0001
    yMax := (p.axes.bind (fun a => a.yMax)).getD 1000000
    xLog := (p.axes.map (fun a => a.xLog)).getD false
    yLog := (p.axes.map (fun a => a.yLog)).getD false
    series := match p.series with
      | some ss => ss.mapIdx (fun idx e =>
          ⟨e.name.getD (if idx = 0 then "A" else "B"),
           e.color.getD (if idx = 0 then "#2563EB" else "#10B981"),
           e.points.getD []⟩)
      | Option.none => cur.series
    bgXform := (p.bg.bind (fun b => b.xform)).getD cur.bgXform
    customAnchors := (p.bg.bind (fun b => b.customAnchors)).getD cur.customAnchors }

/- ================================================================
   I²t integration (lib/i2t.ts)
   ================================================================ -/

/-- Sample `{t, i}` (seconds, amperes), i2t.ts line 13, over ℚ. -/
structure Sample where
  t : ℚ
  i : ℚ
  deriving DecidableEq

instance : Inhabited Sample := ⟨⟨0, 0⟩⟩

/-- The loop of `integrateI2t`, i2t.ts lines 27-33: over consecutive pairs,
`total += (i0² + i1²)/2 * (t1 - t0)`. -/
def integLoop : List Sample → ℚ
  | a :: b :: rest => (a.i * a.i + b.i * b.i) / 2 * (b.t - a.t) + integLoop (b :: rest)
  | _ => 0

/-- Trapezoidal integration of I² over time, i2t.ts lines 23-35; returns 0
for fewer than 2 samples. -/
def integrateI2t (samples : List Sample) : ℚ :=
  if samples.length < 2 then 0 else integLoop samples

/-- Equivalent time at a target current, i2t.ts lines 74-80:
`null` if `I <= 0 || tc.length === 0`, else `integrateI2t(tc) / (I*I)`. -/
def timeAtEqualI2t (tc : List Sample) (I : ℚ) : Option ℚ :=
  if I ≤ 0 ∨ tc.length = 0 then none else some (integrateI2t tc / (I * I))

/- ================================================================
   CSV/TSV parser (lib/parse.ts)
   ================================================================ -/

/-- Separator detected from the first line, parse.ts lines 32-36. -/
inductive Separator where
  | comma
  | tab
  | whitespace
  deriving DecidableEq

/-- JavaScript strings are modelled as their character lists, which keeps
every string operation structurally recursive and executable. -/
def splitOnChar (sep : Char) : List Char → List (List Char)
  | [] => [[]]
  | c :: rest =>
    if c = sep then [] :: splitOnChar sep rest
    else
      match splitOnChar sep rest with
      | t :: ts => (c :: t) :: ts
      | [] => [[c]]

/-- Split on maximal whitespace runs, modelling `line.split(/\s+/)`:
JavaScript keeps an empty token before a leading run and after a trailing
run, and collapses each interior run to one boundary. -/
def splitWsRuns (cs : List Char) (acc : List Char) : List (List Char) :=
  match cs with
  | [] => [acc.reverse]
  | c :: rest =>
    if c.isWhitespace then
      acc.reverse :: splitWsRuns (rest.dropWhile Char.isWhitespace) []
    else splitWsRuns rest (c :: acc)
termination_by cs.length
decreasing_by
  · simp only [List.length_cons]
    exact Nat.lt_succ_of_le (List.dropWhile_sublist _).length_le
  · simp

/-- JavaScript `String.prototype.trim`: strip leading and trailing
whitespace. -/
def trimChars (cs : List Char) : List Char :=
  ((cs.dropWhile Char.isWhitespace).reverse.dropWhile Char.isWhitespace).reverse

/-- One `line.split(separator)`, parse.ts lines 39 and 65. -/
def splitBySep (sep : Separator) (line : List Char) : List (List Char) :=
  match sep with
  | .comma => splitOnChar ',' line
  | .tab => splitOnChar '\t' line
  | .whitespace => splitWsRuns line []

/-- Header test for the time column, parse.ts lines 44-46:
`/^t($|\[|\(|s|sec|time)/i.test(h) || h === 't'` on the lowercased cell. -/
def matchTimeHeader (hd : List Char) : Bool :=
  (['t'].isPrefixOf hd &&
    (let r := hd.drop 1
     r.isEmpty || ['['].isPrefixOf r || ['('].isPrefixOf r || ['s'].isPrefixOf r ||
       ['s', 'e', 'c'].isPrefixOf r || ['t', 'i', 'm', 'e'].isPrefixOf r)) ||
  hd = ['t']

/-- Header test for the current column, parse.ts lines 49-51. -/
def matchCurrentHeader (hd : List Char) : Bool :=
  (['i'].isPrefixOf hd &&
    (let r := hd.drop 1
     r.isEmpty || ['['].isPrefixOf r || ['('].isPrefixOf r || ['a'].isPrefixOf r ||
       ['a', 'm', 'p'].isPrefixOf r || "current".data.isPrefixOf r)) ||
  hd = "current".data

/-- Line splitting, parse.ts line 29: `text.trim().split(/\r?\n/)` then drop
blank lines. -/
def parseLines (text : List Char) : List (List Char) :=
  ((splitOnChar '\n' (trimChars text)).map
      (fun l => if l.getLast? = some '\r' then l.dropLast else l)).filter
    (fun l => !(trimChars l).isEmpty)

/-- The `parseCsvToSamples` function, parse.ts lines 28-80, modelled with its
actual runtime behavior.  The `for` loop body declares `const i` (line 69)
which shadows the loop index for the whole block, so the first statement of
each iteration, `lines[i].split(separator)` (line 65), reads `i` inside the
temporal dead zone of that `const` and throws
`ReferenceError: Cannot access i before initialization`.  Hence the function
returns normally exactly when the loop body never runs — an empty input or a
header-only input — and the returned samples list is then always empty; on
every input with at least one data row the call throws, modelled by
`Except.error`. -/
def parseCsvToSamples (text : String) : Except String (List Sample) :=
  let lines := parseLines text.data
  if lines.isEmpty then .ok []
  else
    let firstLine := lines.headD []
    let sep := if firstLine.contains ',' then Separator.comma
               else if firstLine.contains '\t' then Separator.tab
               else Separator.whitespace
    let header := (splitBySep sep firstLine).map
      (fun cell => (trimChars cell).map Char.toLower)
    let tIdx := header.findIdx? matchTimeHeader
    let iIdx := header.findIdx? matchCurrentHeader
    let isHeader := tIdx.isSome && iIdx.isSome
    let startLine := if isHeader then 1 else 0
    if lines.length ≤ startLine then .ok []
    else .error "TDZ ReferenceError at parse.ts line 65: the loop index i is shadowed by the const i declared at line 69"

/- ================================================================
   Axis transforms over ℝ (coords.ts and part_001 lines 177-202)
   ================================================================ -/

/-- Axis scaling mode, coords.ts line 14. -/
inductive AxisMode where
  | linear
  | log10
  deriving DecidableEq

/-- Log-domain epsilon, coords.ts line 17 and part_001 line 179: `1e-12`. -/
noncomputable def EPS : ℝ := 1e-12

/-- Continuous scaler, coords.ts lines 25-30: log10 mode clamps the value to
`max(EPS, v)` before taking `log10`. -/
noncomputable def makeScaler : AxisMode → ℝ → ℝ
  | .log10 => fun v => Real.logb 10 (max EPS v)
  | .linear => fun v => v

/-- Mode transform of part_001 line 180:
`tVal(v, log) = log ? Math.log10(Math.max(EPS, v)) : v`. -/
noncomputable def tVal (v : ℝ) (lg : Bool) : ℝ :=
  if lg then Real.logb 10 (max EPS v) else v

/-- Inverse mode transform, part_001 line 200 and coords.ts lines 88-91 /
98-101: `10^tv` in log mode. -/
noncomputable def invT (lg : Bool) (tv : ℝ) : ℝ :=
  if lg then (10 : ℝ) ^ tv else tv

/-- Surface rectangle in pixel units over ℝ (coords.ts `Rect`, with the
`width`/`height` fields shortened to `w`/`h` as in part_001's `innerRect`). -/
structure SRect where
  x : ℝ
  y : ℝ
  w : ℝ
  h : ℝ

/-- The app's inner plot rectangle, part_001 lines 51-52 and 177:
canvas 960×560 and padding left 60, right 20, top 30, bottom 46. -/
noncomputable def innerRect : SRect := ⟨60, 30, 960 - 60 - 20, 560 - 30 - 46⟩

/-- Real-to-surface x map of `makeCoordMap`, coords.ts lines 71-75. -/
noncomputable def coordMapX (modeX : AxisMode) (xmin xmax : ℝ) (rect : SRect)
    (x : ℝ) : ℝ :=
  rect.x + ((makeScaler modeX x - makeScaler modeX xmin) /
    (makeScaler modeX xmax - makeScaler modeX xmin)) * rect.w

/-- Real-to-surface y map of `makeCoordMap`, coords.ts lines 77-81 (the y
axis is inverted: larger real value, smaller pixel y). -/
noncomputable def coordMapY (modeY : AxisMode) (ymin ymax : ℝ) (rect : SRect)
    (y : ℝ) : ℝ :=
  rect.y + (1 - (makeScaler modeY y - makeScaler modeY ymin) /
    (makeScaler modeY ymax - makeScaler modeY ymin)) * rect.h

/-- Surface-to-real x map of `makeCoordMap`, coords.ts lines 84-92. -/
noncomputable def coordMapInvX (modeX : AxisMode) (xmin xmax : ℝ) (rect : SRect)
    (px : ℝ) : ℝ :=
  let t := (px - rect.x) / rect.w
  let xScaled := makeScaler modeX xmin + t * (makeScaler modeX xmax - makeScaler modeX xmin)
  match modeX with
  | .log10 => (10 : ℝ) ^ xScaled
  | .linear => xScaled

/-- Surface-to-real y map of `makeCoordMap`, coords.ts lines 94-102. -/
noncomputable def coordMapInvY (modeY : AxisMode) (ymin ymax : ℝ) (rect : SRect)
    (py : ℝ) : ℝ :=
  let t := 1 - (py - rect.y) / rect.h
  let yScaled := makeScaler modeY ymin + t * (makeScaler modeY ymax - makeScaler modeY ymin)
  match modeY with
  | .log10 => (10 : ℝ) ^ yScaled
  | .linear => yScaled

/-- Axis configuration slice of the document over ℝ (the fields
`dataToPixel`/`pixelToData` read from `currentState`). -/
structure AxisView where
  xMin : ℝ
  xMax : ℝ
  yMin : ℝ
  yMax : ℝ
  xLog : Bool
  yLog : Bool

/-- Transformed bounds, part_001 lines 181-186 (`tMinMax`). -/
structure TMM where
  xmin : ℝ
  xmax : ℝ
  ymin : ℝ
  ymax : ℝ

/-- part_001 lines 181-186. -/
noncomputable def tMinMax (s : AxisView) : TMM :=
  ⟨tVal s.xMin s.xLog, tVal s.xMax s.xLog, tVal s.yMin s.yLog, tVal s.yMax s.yLog⟩

/-- Exact real-to-surface x, part_001 lines 188-195 (`dataToPixel`), with
Lean's total division (used only where the denominator is proved nonzero). -/
noncomputable def dataToPixelX (s : AxisView) (r : SRect) (x : ℝ) : ℝ :=
  r.x + ((tVal x s.xLog - (tMinMax s).xmin) / ((tMinMax s).xmax - (tMinMax s).xmin)) * r.w

/-- Exact real-to-surface y, part_001 lines 188-195. -/
noncomputable def dataToPixelY (s : AxisView) (r : SRect) (y : ℝ) : ℝ :=
  r.y + r.h - ((tVal y s.yLog - (tMinMax s).ymin) / ((tMinMax s).ymax - (tMinMax s).ymin)) * r.h

/-- Exact surface-to-real x, part_001 lines 196-202 (`pixelToData`). -/
noncomputable def pixelToDataX (s : AxisView) (r : SRect) (px : ℝ) : ℝ :=
  invT s.xLog ((tMinMax s).xmin + ((px - r.x) / r.w) * ((tMinMax s).xmax - (tMinMax s).xmin))

/-- Exact surface-to-real y, part_001 lines 196-202. -/
noncomputable def pixelToDataY (s : AxisView) (r : SRect) (py : ℝ) : ℝ :=
  invT s.yLog ((tMinMax s).ymin + ((r.y + r.h - py) / r.h) * ((tMinMax s).ymax - (tMinMax s).ymin))

/-- JavaScript division: `none` models the non-finite number (NaN or
±Infinity) a zero denominator produces; the source has no zero check at its
division sites. -/
noncomputable def jsDiv (a b : ℝ) : Option ℝ :=
  if b = 0 then none else some (a / b)

/-- Real-to-surface x with JavaScript division semantics: `none` is the
non-finite pixel produced when the transformed range has zero width. -/
noncomputable def dataToPixelJsX (s : AxisView) (r : SRect) (x : ℝ) : Option ℝ :=
  (jsDiv (tVal x s.xLog - (tMinMax s).xmin) ((tMinMax s).xmax - (tMinMax s).xmin)).map
    (fun t => r.x + t * r.w)

/-- Real-to-surface y with JavaScript division semantics. -/
noncomputable def dataToPixelJsY (s : AxisView) (r : SRect) (y : ℝ) : Option ℝ :=
  (jsDiv (tVal y s.yLog - (tMinMax s).ymin) ((tMinMax s).ymax - (tMinMax s).ymin)).map
    (fun t => r.y + r.h - t * r.h)

/-- Surface-to-real x with JavaScript division semantics (the only division
is by `r.w`; the transformed range is multiplied, never divided by). -/
noncomputable def pixelToDataJsX (s : AxisView) (r : SRect) (px : ℝ) : Option ℝ :=
  (jsDiv (px - r.x) r.w).map
    (fun t => invT s.xLog ((tMinMax s).xmin + t * ((tMinMax s).xmax - (tMinMax s).xmin)))

/-- Surface-to-real y with JavaScript division semantics. -/
noncomputable def pixelToDataJsY (s : AxisView) (r : SRect) (py : ℝ) : Option ℝ :=
  (jsDiv (r.y + r.h - py) r.h).map
    (fun t => invT s.yLog ((tMinMax s).ymin + t * ((tMinMax s).ymax - (tMinMax s).ymin)))

/-- The degenerate-range guard of `drawGrid`, part_001 lines 350-353: the
source tests `!isFinite(...)` on the four transformed bounds and
`xmax <= xmin || ymax <= ymin`; over exact reals every value is finite, so
the guard reduces to the two comparisons. -/
def drawGridInvalid (s : AxisView) : Prop :=
  (tMinMax s).xmax ≤ (tMinMax s).xmin ∨ (tMinMax s).ymax ≤ (tMinMax s).ymin

/- ================================================================
   Guide-line interpolation (part_001 lines 444-460, `yAtX`)
   ================================================================ -/

/-- Data point in real units over ℝ, part_001 line 14 (`Pt`). -/
structure Pt where
  x : ℝ
  y : ℝ

/-- Bracketing test of one consecutive segment in transformed x,
part_001 line 453: `(x1 <= xT && xT <= x2) || (x2 <= xT && xT <= x1)`. -/
def segBracket (xLog : Bool) (xT : ℝ) (p q : Pt) : Prop :=
  (tVal p.x xLog ≤ xT ∧ xT ≤ tVal q.x xLog) ∨
    (tVal q.x xLog ≤ xT ∧ xT ≤ tVal p.x xLog)

noncomputable instance (xLog : Bool) (xT : ℝ) (p q : Pt) :
    Decidable (segBracket xLog xT p q) := by
  unfold segBracket; infer_instance

/-- Interpolated value on a bracketing segment, part_001 lines 454-456:
`t = (xT - x1) / ((x2 - x1) || EPS)` (JavaScript `||`: a zero-width segment
falls back to `EPS`), then `invY(ty(y1) + t*(ty(y2) - ty(y1)))`. -/
noncomputable def segInterp (xLog yLog : Bool) (xT : ℝ) (p q : Pt) : ℝ :=
  let x1 := tVal p.x xLog
  let x2 := tVal q.x xLog
  let t := (xT - x1) / (if x2 - x1 = 0 then EPS else x2 - x1)
  invT yLog (tVal p.y yLog + t * (tVal q.y yLog - tVal p.y yLog))

/-- The segment loop of `yAtX`, part_001 lines 450-458: first bracketing
consecutive segment wins. -/
noncomputable def yAtXLoop (xLog yLog : Bool) (xT : ℝ) : List Pt → Option ℝ
  | p :: q :: rest =>
    if segBracket xLog xT p q then some (segInterp xLog yLog xT p q)
    else yAtXLoop xLog yLog xT (q :: rest)
  | _ => none

/-- Guide interpolation `yAtX`, part_001 lines 444-460: `null` for fewer
than 2 points, else scan consecutive segments for one bracketing the
transformed target. -/
noncomputable def yAtX (xLog yLog : Bool) (seriesPts : List Pt) (xTarget : ℝ) :
    Option ℝ :=
  if seriesPts.length < 2 then none
  else yAtXLoop xLog yLog (tVal xTarget xLog) seriesPts

/- ================================================================
   Theorems
   ================================================================ -/

/-- Every single history operation preserves `cursor < length`. -/
theorem applyHistOp_inv {α : Type} [Inhabited α] (op : HistOp α) (h : History α)
    (hh : h.cursor < h.snapshots.length) :
    (applyHistOp op h).cursor < (applyHistOp op h).snapshots.length := by
  obtain ⟨snaps, c⟩ := h
  simp only [History.cursor, History.snapshots] at hh
  cases op with
  | commit u =>
    simp only [applyHistOp, updateState, Bool.false_eq_true, if_false,
      List.length_append, List.length_take, List.length_cons, List.length_nil]
    omega
  | undo =>
    simp only [applyHistOp, handleUndo]
    split <;> simp only [History.cursor, History.snapshots] <;> omega
  | redo =>
    simp only [applyHistOp, handleRedo]
    split at * <;> simp only [History.cursor, History.snapshots] at * <;> omega

/-- The invariant holds after any operation sequence. -/
theorem runHistOps_inv {α : Type} [Inhabited α] (ops : List (HistOp α))
    (h : History α) (hh : h.cursor < h.snapshots.length) :
    (runHistOps ops h).cursor < (runHistOps ops h).snapshots.length := by
  induction ops generalizing h with
  | nil => exact hh
  | cons op rest ih =>
    simp only [runHistOps, List.foldl_cons]
    exact ih _ (applyHistOp_inv op h hh)

/-- Undo right after a commit restores the pre-commit current document. -/
theorem undo_after_commit {α : Type} [Inhabited α] (u : α → α) (h : History α)
    (hh : h.cursor < h.snapshots.length) :
    currentState (handleUndo (updateState u false h)) = currentState h := by
  simp only [updateState, handleUndo, currentState, Bool.false_eq_true, if_false]
  have hc : 0 < h.cursor + 1 := Nat.succ_pos _
  rw [if_pos hc]
  simp only [Nat.add_sub_cancel]
  have hlt : h.cursor < (h.snapshots.take (h.cursor + 1)).length := by
    simp [List.length_take]; omega
  rw [List.getElem?_append_left hlt, List.getElem?_take_of_lt (Nat.lt_succ_self _)]

/-- C2. History cursor bounds and undo restoration: starting from the
initialized single-snapshot history, after any sequence of commit
(`updateState`), undo and redo operations the cursor satisfies
`0 ≤ cursor < len(snapshots)` (the lower bound is the `Nat` type), and
performing undo immediately after a commit yields a current document equal
to the document current just before the commit. -/
theorem history_cursor_bounds_and_undo {α : Type} [Inhabited α] (d : α)
    (ops : List (HistOp α)) (u : α → α) :
    (runHistOps ops (initHistory d)).cursor <
      (runHistOps ops (initHistory d)).snapshots.length ∧
    currentState (handleUndo (updateState u false (runHistOps ops (initHistory d)))) =
      currentState (runHistOps ops (initHistory d)) := by
  have hinv := runHistOps_inv ops (initHistory d) (by simp [initHistory])
  exact ⟨hinv, undo_after_commit u _ hinv⟩

/-- C9 (amended). Guide lines live outside the undo-able document: undo,
redo and commits never change the guide lists, and adding a guide never
touches the history. -/
theorem guides_outside_history (s : UIState) (u : AppState → AppState)
    (ow : Bool) (v : ℚ) :
    (uiUndo s).guideXs = s.guideXs ∧ (uiUndo s).guideYs = s.guideYs ∧
    (uiRedo s).guideXs = s.guideXs ∧ (uiRedo s).guideYs = s.guideYs ∧
    (uiUpdateState u ow s).guideXs = s.guideXs ∧
    (uiUpdateState u ow s).guideYs = s.guideYs ∧
    (uiAddGuideX v s).hist = s.hist ∧ (uiAddGuideY v s).hist = s.hist := by
  refine ⟨rfl, rfl, rfl, rfl, rfl, rfl, ?_, ?_⟩ <;>
    first
    | (unfold uiAddGuideX; split <;> rfl)
    | (unfold uiAddGuideY; split <;> rfl)

/-- C9 counterexample. The claim says an undo after a guide change restores
the guides; in the code the guides are not part of `AppState`, so after
adding guide `x = 5` and undoing a real commit (cursor 1 → 0), the guide
list still holds `[5]`, not the pre-change `[]`. -/
theorem guides_not_restored_cex :
    (let s0 : UIState := ⟨initHistory initState, [], []⟩
     let s1 := uiUpdateState (fun st => { st with xMin := 20 }) false s0
     let s2 := uiAddGuideX 5 s1
     let s3 := uiUndo s2
     s3.guideXs = [5] ∧ s3.hist.cursor = 0 ∧ s2.hist.cursor = 1 ∧
       s0.guideXs = []) := by
  decide

/-- C4 (amended). Right-handle resize with `keepAspect = false` and the
default custom anchor (no picked anchor, so the anchor is the base rect's
bottom-left, fraction `fx = 0`): for any pointer position only the width
scale can change — `sy`, `offX`, `offY` are untouched — and the drawn
rectangle keeps its left edge `dx`, top edge `dy` and height `dh`.
(The resize session is the one captured at mousedown from
`drawRectAndAnchor`, part_001 line 871.) -/
theorem resize_right_anchor_stable (base : QRect) (xf : BgXf) (px py : ℚ) :
    (let d := drawRectAndAnchor base xf Option.none
     let s : ResizeSession := ⟨d.ax, d.ay, d.fx, d.fy, d.baseW, d.baseH⟩
     let xf2 := applyResizeStep Handle.right false s px py xf
     let d2 := drawRectAndAnchor base xf2 Option.none
     xf2.sy = xf.sy ∧ xf2.offX = xf.offX ∧ xf2.offY = xf.offY ∧
       d2.dx = d.dx ∧ d2.dy = d.dy ∧ d2.dh = d.dh) := by
  simp [drawRectAndAnchor, applyResizeStep, resizeDims, truthyClampScale]

/-- C4 counterexample. With a picked custom anchor at image-fraction
`fx = 1/2` the left edge of the drawn rectangle moves under a right-handle
resize (`0` before, `-50` after), and with `keepAspect = true` a
right-handle resize also changes the height scale `sy` (the session values
are in both cases the ones `drawRectAndAnchor` yields for the start state). -/
theorem resize_right_anchor_cex :
    (drawRectAndAnchor ⟨0, 0, 100, 100⟩
        (applyResizeStep Handle.right false ⟨50, 50, 1/2, 1/2, 100, 100⟩ 150 0
          ⟨1, 1, 0, 0⟩)
        (some ⟨50, 50, 1/2, 1/2⟩)).dx ≠
      (drawRectAndAnchor ⟨0, 0, 100, 100⟩ ⟨1, 1, 0, 0⟩
        (some ⟨50, 50, 1/2, 1/2⟩)).dx ∧
    (applyResizeStep Handle.right true ⟨0, 100, 0, 1, 100, 100⟩ 200 0
        ⟨1, 1, 0, 0⟩).sy ≠ (1 : ℚ) := by
  have habs : |(1 : ℚ) / 2| = 1 / 2 := abs_of_pos (by norm_num)
  have habs1 : |(1 : ℚ)| = 1 := abs_of_pos (by norm_num)
  refine ⟨?_, ?_⟩ <;>
    norm_num [drawRectAndAnchor, applyResizeStep, resizeDims, truthyClampScale,
      clampS, safe, min_def, max_def, habs, habs1]

/-- Constant-current trapezoids telescope: if every sample carries current
`I0`, the integration loop returns `I0² * (t_last - t_first)`. -/
theorem integLoop_const (I0 : ℚ) :
    ∀ l : List Sample, (∀ s ∈ l, s.i = I0) →
      integLoop l = I0 ^ 2 * ((l.getLastD default).t - (l.headD default).t)
  | [], _ => by simp [integLoop]
  | [a], _ => by simp [integLoop]
  | a :: b :: rest, hc => by
    have ha : a.i = I0 := hc a (by simp)
    have hb : b.i = I0 := hc b (by simp)
    have ih := integLoop_const I0 (b :: rest)
      (fun s hs => hc s (List.mem_cons_of_mem _ hs))
    simp only [integLoop] at ih ⊢
    rw [ih]
    simp only [List.getLastD_cons, List.headD_cons, ha, hb]
    ring

/-- C5 (amended). For at least 2 samples sorted by `t` carrying a constant
current `I0 > 0` over total duration `T = t_last - t_first`, `integrateI2t`
returns exactly `I0² * T` and `timeAtEqualI2t` returns `T` (for `I0 ≤ 0`
the source returns `null` instead, see the counterexample). -/
theorem i2t_const_current (samples : List Sample) (I0 : ℚ)
    (hlen : 2 ≤ samples.length)
    (hsorted : samples.Chain' (fun a b => a.t ≤ b.t))
    (hconst : ∀ s ∈ samples, s.i = I0) (hI : 0 < I0) :
    integrateI2t samples =
      I0 ^ 2 * ((samples.getLastD default).t - (samples.headD default).t) ∧
    timeAtEqualI2t samples I0 =
      some ((samples.getLastD default).t - (samples.headD default).t) := by
  have h1 : integrateI2t samples =
      I0 ^ 2 * ((samples.getLastD default).t - (samples.headD default).t) := by
    unfold integrateI2t
    rw [if_neg (by omega)]
    exact integLoop_const I0 samples hconst
  refine ⟨h1, ?_⟩
  unfold timeAtEqualI2t
  rw [if_neg (by push_neg; exact ⟨by linarith, by omega⟩), h1]
  congr 1
  have hI2 : I0 * I0 ≠ 0 := by positivity
  field_simp
  ring

/-- C5 witness: three samples of constant current 2 from `t = 0` to `t = 3`. -/
theorem i2t_const_current_witness :
    integrateI2t [⟨0, 2⟩, ⟨1, 2⟩, ⟨3, 2⟩] =
      (2 : ℚ) ^ 2 * ((([⟨0, 2⟩, ⟨1, 2⟩, ⟨3, 2⟩] : List Sample).getLastD default).t -
        (([⟨0, 2⟩, ⟨1, 2⟩, ⟨3, 2⟩] : List Sample).headD default).t) ∧
    timeAtEqualI2t [⟨0, 2⟩, ⟨1, 2⟩, ⟨3, 2⟩] 2 =
      some ((([⟨0, 2⟩, ⟨1, 2⟩, ⟨3, 2⟩] : List Sample).getLastD default).t -
        (([⟨0, 2⟩, ⟨1, 2⟩, ⟨3, 2⟩] : List Sample).headD default).t) :=
  i2t_const_current [⟨0, 2⟩, ⟨1, 2⟩, ⟨3, 2⟩] 2 (by decide)
    (by norm_num [List.chain'_cons]) (by decide) (by decide)

/-- C5 counterexample. A constant zero current over duration 1 is a constant
curve with `T = 1`, yet `timeAtEqualI2t` returns `null`, not `T`, because of
its `I <= 0` guard — the claim fails for `I0 = 0`. -/
theorem i2t_zero_current_cex :
    ([⟨0, 0⟩, ⟨1, 0⟩] : List Sample).length = 2 ∧
    (∀ s ∈ ([⟨0, 0⟩, ⟨1, 0⟩] : List Sample), s.i = 0) ∧
    timeAtEqualI2t [⟨0, 0⟩, ⟨1, 0⟩] 0 = none ∧
    timeAtEqualI2t [⟨0, 0⟩, ⟨1, 0⟩] 0 ≠ some 1 := by
  decide

/-- Range of the clamp: `clampS` always lands in `[0.05, 50]`. -/
theorem clampS_bounds (v : ℚ) : 0.05 ≤ clampS v ∧ clampS v ≤ 50 := by
  unfold clampS
  constructor
  · exact le_max_left _ _
  · exact max_le (by norm_num) (min_le_left _ _)

/-- A value already inside `[0.05, 50]` is a fixed point of `clampS`. -/
theorem clampS_of_mem (v : ℚ) (h1 : 0.05 ≤ v) (h2 : v ≤ 50) : clampS v = v := by
  unfold clampS
  rw [min_eq_right h2, max_eq_right h1]

/-- The truthiness-guarded scale update stays inside `[0.05, 50]` whenever
the current scale is. -/
theorem truthyClampScale_mem (cur : ℚ) (d : Option ℚ) (base : ℚ)
    (hc : 0.05 ≤ cur ∧ cur ≤ 50) :
    0.05 ≤ truthyClampScale cur d base ∧ truthyClampScale cur d base ≤ 50 := by
  unfold truthyClampScale
  cases d with
  | none => exact hc
  | some dd =>
    by_cases hz : dd = 0
    · simp [hz, hc.1, hc.2]
    · simp only [hz, if_false]
      exact clampS_bounds _

/-- C8 (amended). The scale clamp maps every input into `[0.05, 50]` and is
idempotent; the resize and drag steps preserve, and the wheel-zoom step
establishes, the document invariant `scaleX, scaleY ∈ [0.05, 50]`, which
holds for the initial document.  (Preset load violates it: see the
counterexample — `applyPreset` copies the preset transforms unclamped, and
the clamp is re-applied only at draw time in `drawRectAndAnchor`.) -/
theorem clampScale_invariant :
    (∀ v : ℚ, 0.05 ≤ clampS v ∧ clampS v ≤ 50 ∧ clampS (clampS v) = clampS v) ∧
    (∀ (mode : Handle) (ka : Bool) (s : ResizeSession) (px py : ℚ) (xf : BgXf),
      ScaleInv xf → ScaleInv (applyResizeStep mode ka s px py xf)) ∧
    (∀ (zi ka : Bool) (xf : BgXf), ScaleInv (applyWheelStep zi ka xf)) ∧
    (∀ (startX startY baseX baseY px py : ℚ) (xf : BgXf),
      ScaleInv xf → ScaleInv (applyDragStep startX startY baseX baseY px py xf)) ∧
    ScaleInv initState.bgXform.1 ∧ ScaleInv initState.bgXform.2 := by
  refine ⟨?_, ?_, ?_, ?_, ?_, ?_⟩
  · intro v
    obtain ⟨h1, h2⟩ := clampS_bounds v
    exact ⟨h1, h2, clampS_of_mem _ h1 h2⟩
  · intro mode ka s px py xf hxf
    obtain ⟨h1, h2, h3, h4⟩ := hxf
    have hx := truthyClampScale_mem xf.sx (resizeDims mode ka s px py).1 s.baseW ⟨h1, h2⟩
    have hy := truthyClampScale_mem xf.sy (resizeDims mode ka s px py).2 s.baseH ⟨h3, h4⟩
    unfold applyResizeStep ScaleInv
    cases ka <;> simp only [Bool.false_eq_true, if_false, if_true, ite_self] <;>
      exact ⟨hx.1, hx.2, by first | exact ⟨hy.1, hy.2⟩ | exact ⟨hx.1, hx.2⟩⟩
  · intro zi ka xf
    have hx := clampS_bounds (xf.sx * (if zi then (1.05 : ℚ) else 0.95))
    have hy := clampS_bounds (xf.sy * (if ka then (if zi then (1.05 : ℚ) else 0.95)
      else (if zi then (1.05 : ℚ) else 0.95)))
    unfold applyWheelStep ScaleInv
    cases ka <;> simp only [Bool.false_eq_true, if_false, if_true] <;>
      exact ⟨hx.1, hx.2, by first | exact ⟨hy.1, hy.2⟩ | exact ⟨hx.1, hx.2⟩⟩
  · intro _ _ _ _ _ _ xf hxf
    exact hxf
  · norm_num [ScaleInv, initState]
  · norm_num [ScaleInv, initState]

/-- C8 counterexample. Loading a preset whose background transform carries
`sx = 100` puts an out-of-range scale into the committed document: the
`applyPreset` construction copies `p.bg.xform` with no clamp, and the
overwrite commit stores it as the current snapshot, so the reachable
document state violates `scaleX ∈ [0.05, 50]`. -/
theorem preset_unclamped_scale_cex :
    (let p : Preset := ⟨Option.none, Option.none,
        some ⟨some (⟨100, 1, 0, 0⟩, ⟨1, 1, 0, 0⟩), Option.none⟩⟩
     let h1 := updateState (fun _ => applyPresetNext p initState) true
        (initHistory initState)
     (currentState h1).map (fun st => st.bgXform.1.sx) = some 100 ∧
       ¬ ScaleInv (applyPresetNext p initState).bgXform.1) := by
  constructor
  · rfl
  · intro hinv
    have h50 : (100 : ℚ) ≤ 50 := by
      have := hinv.2.1
      simpa [applyPresetNext] using this
    norm_num at h50

/-- C10. Evaluation of `parseCsvToSamples` at its own doc-comment example and
at a single data row: both throw the temporal-dead-zone `ReferenceError`
(the loop body reads `lines[i]` while the loop index is shadowed by the
later `const i` of the same block), instead of returning the parsed sorted
sample list; only inputs with no data rows (empty, or header-only) return
normally, and then with an empty list. -/
theorem parseCsv_tdz_error :
    parseCsvToSamples "t,i\n0.01,3000\n0.10,1500" =
      Except.error "TDZ ReferenceError at parse.ts line 65: the loop index i is shadowed by the const i declared at line 69" ∧
    parseCsvToSamples "0.01,3000" =
      Except.error "TDZ ReferenceError at parse.ts line 65: the loop index i is shadowed by the const i declared at line 69" ∧
    parseCsvToSamples "" = Except.ok [] ∧
    parseCsvToSamples "t,i" = Except.ok [] :=
  ⟨rfl, rfl, rfl, rfl⟩

/-- Base-10 logarithm of an explicit power of ten. -/
theorem logb_of_rpow (y x : ℝ) (h : x = (10 : ℝ) ^ y) : Real.logb 10 x = y := by
  rw [h]
  exact Real.logb_rpow (show (0 : ℝ) < 10 by norm_num) (show (10 : ℝ) ≠ 1 by norm_num)

/-- Epsilon of the log clamp as a power of ten. -/
theorem EPS_eq : EPS = (10 : ℝ) ^ (-12 : ℝ) := by
  unfold EPS
  rw [show ((-12 : ℝ)) = ((-12 : ℤ) : ℝ) by norm_num, Real.rpow_intCast]
  norm_num

/-- Value of the log transform at the clamp floor. -/
theorem logb_EPS : Real.logb 10 EPS = -12 := logb_of_rpow _ _ EPS_eq

/-- C7. Log-domain clamping: in log10 mode the scaler computes
`log10(max(v, EPS))` with `EPS = 1e-12`, so every `v ≤ 0` is silently
floored to `EPS` — the result equals the scaler at `EPS` itself and is the
finite real number `-12`, with no error, NaN or `-Infinity` involved. -/
theorem logClamp_floor (v : ℝ) (hv : v ≤ 0) :
    makeScaler AxisMode.log10 v = Real.logb 10 EPS ∧
    makeScaler AxisMode.log10 v = makeScaler AxisMode.log10 EPS ∧
    tVal v true = -12 := by
  have hvE : v ≤ EPS := le_trans hv (by norm_num [EPS])
  have hmax : max EPS v = EPS := max_eq_left hvE
  refine ⟨?_, ?_, ?_⟩
  · simp [makeScaler, hmax]
  · simp [makeScaler, hmax]
  · simp [tVal, hmax, logb_EPS]

/-- C7 witness: the scaler at `v = -5`. -/
theorem logClamp_floor_witness :
    makeScaler AxisMode.log10 (-5) = Real.logb 10 EPS ∧
    makeScaler AxisMode.log10 (-5) = makeScaler AxisMode.log10 EPS ∧
    tVal (-5) true = -12 :=
  logClamp_floor (-5) (by norm_num)

/-- C1 (amended). Round-trip law of the axis transform: for every axis
configuration with `max > min` (and, in log10 mode, `min ≥ EPS = 1e-12`
rather than merely `min > 0` — see the counterexample for why the claim
fails below the log-domain floor) and every `v` strictly inside
`(min, max)`, the surface-to-real map inverts the real-to-surface map
exactly in real arithmetic — hence in particular within `1e-4` relative
tolerance — for both modes, on the x axis and on the orientation-flipped
y axis, for any surface rectangle with nonzero width and height. -/
theorem coordMap_roundTrip (mode : AxisMode) (mn mx v : ℝ) (rect : SRect)
    (hrange : mn < mx) (hv1 : mn < v) (hv2 : v < mx)
    (hlog : mode = AxisMode.log10 → EPS ≤ mn)
    (hw : rect.w ≠ 0) (hh : rect.h ≠ 0) :
    coordMapInvX mode mn mx rect (coordMapX mode mn mx rect v) = v ∧
    coordMapInvY mode mn mx rect (coordMapY mode mn mx rect v) = v := by
  cases mode with
  | linear =>
    have hne : mx - mn ≠ 0 := sub_ne_zero.mpr hrange.ne'
    constructor
    · simp only [coordMapX, coordMapInvX, makeScaler]
      field_simp
      ring
    · simp only [coordMapY, coordMapInvY, makeScaler]
      field_simp
      ring
  | log10 =>
    have hEps : (0 : ℝ) < EPS := by norm_num [EPS]
    have hmn : EPS ≤ mn := hlog rfl
    have h0mn : 0 < mn := lt_of_lt_of_le hEps hmn
    have h0v : 0 < v := h0mn.trans hv1
    have e1 : max EPS mn = mn := max_eq_right hmn
    have e2 : max EPS v = v := max_eq_right (hmn.trans hv1.le)
    have e3 : max EPS mx = mx := max_eq_right ((hmn.trans hv1.le).trans hv2.le)
    have hlt : Real.logb 10 mn < Real.logb 10 mx :=
      Real.logb_lt_logb (by norm_num) h0mn hrange
    have hne : Real.logb 10 mx - Real.logb 10 mn ≠ 0 := sub_ne_zero.mpr hlt.ne'
    constructor
    · simp only [coordMapX, coordMapInvX, makeScaler, e1, e2, e3]
      rw [show Real.logb 10 mn +
          (rect.x + (Real.logb 10 v - Real.logb 10 mn) /
            (Real.logb 10 mx - Real.logb 10 mn) * rect.w - rect.x) / rect.w *
          (Real.logb 10 mx - Real.logb 10 mn) = Real.logb 10 v by field_simp; ring]
      exact Real.rpow_logb (by norm_num) (by norm_num) h0v
    · simp only [coordMapY, coordMapInvY, makeScaler, e1, e2, e3]
      rw [show Real.logb 10 mn +
          (1 - (rect.y + (1 - (Real.logb 10 v - Real.logb 10 mn) /
            (Real.logb 10 mx - Real.logb 10 mn)) * rect.h - rect.y) / rect.h) *
          (Real.logb 10 mx - Real.logb 10 mn) = Real.logb 10 v by field_simp; ring]
      exact Real.rpow_logb (by norm_num) (by norm_num) h0v

/-- C1 witness: log-log axes `[10, 10⁶]` on the app's 880×484 plot rect,
round-tripping `v = 100` on both axes. -/
theorem coordMap_roundTrip_witness :
    coordMapInvX AxisMode.log10 10 1000000 ⟨0, 0, 880, 484⟩
        (coordMapX AxisMode.log10 10 1000000 ⟨0, 0, 880, 484⟩ 100) = 100 ∧
    coordMapInvY AxisMode.log10 10 1000000 ⟨0, 0, 880, 484⟩
        (coordMapY AxisMode.log10 10 1000000 ⟨0, 0, 880, 484⟩ 100) = 100 :=
  coordMap_roundTrip AxisMode.log10 10 1000000 100 ⟨0, 0, 880, 484⟩ (by norm_num)
    (by norm_num) (by norm_num) (fun _ => by norm_num [EPS]) (by norm_num)
    (by norm_num)

/-- C1 counterexample. The claim admits every log10 configuration with
`min > 0`; take `min = 1e-13 > 0`, `max = 1` and `v = 5e-13` strictly
inside: both `min` and `v` are clamped to `EPS = 1e-12`, the round trip
returns `1e-12`, and the relative error against `v = 5e-13` is `1`, far
above the claimed `1e-4` tolerance. -/
theorem coordMap_roundTrip_cex :
    (0 : ℝ) < 1e-13 ∧ (1e-13 : ℝ) < 5e-13 ∧ (5e-13 : ℝ) < 1 ∧
    coordMapInvX AxisMode.log10 1e-13 1 ⟨0, 0, 880, 484⟩
        (coordMapX AxisMode.log10 1e-13 1 ⟨0, 0, 880, 484⟩ 5e-13) = 1e-12 ∧
    ¬(|(1e-12 : ℝ) - 5e-13| ≤ 1e-4 * 5e-13) := by
  refine ⟨by norm_num, by norm_num, by norm_num, ?_, ?_⟩
  · have e1 : max EPS (1e-13 : ℝ) = EPS := max_eq_left (by norm_num [EPS])
    have e2 : max EPS (5e-13 : ℝ) = EPS := max_eq_left (by norm_num [EPS])
    have e3 : max EPS (1 : ℝ) = 1 := max_eq_right (by norm_num [EPS])
    simp only [coordMapX, coordMapInvX, makeScaler, e1, e2, e3, sub_self,
      Real.logb_one, zero_div, zero_mul, add_zero, zero_sub, zero_add, sub_zero]
    rw [Real.rpow_logb (by norm_num) (by norm_num) (by norm_num [EPS])]
    norm_num [EPS]
  · rw [abs_of_pos (by norm_num)]
    norm_num

/-- C6 (amended). The degenerate-range guard lives in the caller `drawGrid`,
not in the transform functions; when that guard passes (the transformed
range is non-degenerate on both axes) and the plot rectangle has nonzero
width and height, every division in `dataToPixel`/`pixelToData` has a
nonzero denominator, so under JavaScript semantics the transforms produce
genuine finite numbers (`some` of the exact value), never NaN. -/
theorem dataToPixel_guard_finite (s : AxisView) (r : SRect)
    (hvalid : ¬ drawGridInvalid s) (hw : r.w ≠ 0) (hh : r.h ≠ 0)
    (x y px py : ℝ) :
    dataToPixelJsX s r x = some (dataToPixelX s r x) ∧
    dataToPixelJsY s r y = some (dataToPixelY s r y) ∧
    pixelToDataJsX s r px = some (pixelToDataX s r px) ∧
    pixelToDataJsY s r py = some (pixelToDataY s r py) := by
  unfold drawGridInvalid at hvalid
  push_neg at hvalid
  obtain ⟨hx, hy⟩ := hvalid
  have hxne : (tMinMax s).xmax - (tMinMax s).xmin ≠ 0 := sub_ne_zero.mpr hx.ne'
  have hyne : (tMinMax s).ymax - (tMinMax s).ymin ≠ 0 := sub_ne_zero.mpr hy.ne'
  refine ⟨?_, ?_, ?_, ?_⟩ <;>
    simp [dataToPixelJsX, dataToPixelJsY, pixelToDataJsX, pixelToDataJsY, jsDiv,
      dataToPixelX, dataToPixelY, pixelToDataX, pixelToDataY, hxne, hyne, hw, hh]

/-- C6 witness: linear axes `[0, 1] × [0, 1]` on the app's plot rect, where
the `drawGrid` guard passes and all four transforms are finite. -/
theorem dataToPixel_guard_finite_witness :
    dataToPixelJsX ⟨0, 1, 0, 1, false, false⟩ ⟨60, 30, 880, 484⟩ (1/2) =
      some (dataToPixelX ⟨0, 1, 0, 1, false, false⟩ ⟨60, 30, 880, 484⟩ (1/2)) ∧
    dataToPixelJsY ⟨0, 1, 0, 1, false, false⟩ ⟨60, 30, 880, 484⟩ (1/2) =
      some (dataToPixelY ⟨0, 1, 0, 1, false, false⟩ ⟨60, 30, 880, 484⟩ (1/2)) ∧
    pixelToDataJsX ⟨0, 1, 0, 1, false, false⟩ ⟨60, 30, 880, 484⟩ 500 =
      some (pixelToDataX ⟨0, 1, 0, 1, false, false⟩ ⟨60, 30, 880, 484⟩ 500) ∧
    pixelToDataJsY ⟨0, 1, 0, 1, false, false⟩ ⟨60, 30, 880, 484⟩ 200 =
      some (pixelToDataY ⟨0, 1, 0, 1, false, false⟩ ⟨60, 30, 880, 484⟩ 200) :=
  dataToPixel_guard_finite ⟨0, 1, 0, 1, false, false⟩ ⟨60, 30, 880, 484⟩
    (by norm_num [drawGridInvalid, tMinMax, tVal]) (by norm_num) (by norm_num)
    (1/2) (1/2) 500 200

/-- C6 counterexample. On the degenerate linear range `xMin = xMax = 1` the
real-to-surface transform divides by zero and produces a non-finite value
(`none`, modelling the NaN the source propagates) — it returns no sentinel
invalid status — while the surface-to-real transform silently returns the
ordinary number `1`; the only degenerate-range check is the caller-side
`drawGrid` guard, which does fire on this state. -/
theorem dataToPixel_degenerate_cex :
    dataToPixelJsX ⟨1, 1, 0, 1, false, false⟩ ⟨60, 30, 880, 484⟩ 1 = none ∧
    pixelToDataJsX ⟨1, 1, 0, 1, false, false⟩ ⟨60, 30, 880, 484⟩ 500 = some 1 ∧
    drawGridInvalid ⟨1, 1, 0, 1, false, false⟩ := by
  refine ⟨?_, ?_, ?_⟩
  · simp [dataToPixelJsX, jsDiv, tMinMax, tVal]
  · simp [pixelToDataJsX, jsDiv, tMinMax, tVal, invT]
  · simp [drawGridInvalid, tMinMax, tVal]

/-- The segment loop returns nothing iff no consecutive segment brackets the
transformed target. -/
theorem yAtXLoop_eq_none_iff (xLog yLog : Bool) (xT : ℝ) (l : List Pt) :
    yAtXLoop xLog yLog xT l = none ↔
      ∀ pq ∈ l.zip l.tail, ¬ segBracket xLog xT pq.1 pq.2 := by
  induction l with
  | nil => simp [yAtXLoop]
  | cons p rest ih =>
    cases rest with
    | nil => simp [yAtXLoop]
    | cons q rest2 =>
      by_cases hb : segBracket xLog xT p q
      · simp only [yAtXLoop, if_pos hb, List.tail_cons, List.zip_cons_cons]
        constructor
        · intro hsome
          exact absurd hsome (by simp)
        · intro hall
          exact absurd hb (hall (p, q) (by simp))
      · simp only [yAtXLoop, if_neg hb, List.tail_cons, List.zip_cons_cons] at ih ⊢
        rw [ih]
        constructor
        · intro hall pq hpq
          rcases List.mem_cons.mp hpq with heq | hmem
          · subst heq; exact hb
          · exact hall pq hmem
        · intro hall pq hpq
          exact hall pq (List.mem_cons_of_mem _ hpq)

/-- A value returned by the segment loop is the interpolation on some
bracketing consecutive segment. -/
theorem yAtXLoop_eq_some (xLog yLog : Bool) (xT : ℝ) (l : List Pt) (yv : ℝ)
    (hs : yAtXLoop xLog yLog xT l = some yv) :
    ∃ pq ∈ l.zip l.tail, segBracket xLog xT pq.1 pq.2 ∧
      yv = segInterp xLog yLog xT pq.1 pq.2 := by
  induction l with
  | nil => simp [yAtXLoop] at hs
  | cons p rest ih =>
    cases rest with
    | nil => simp [yAtXLoop] at hs
    | cons q rest2 =>
      by_cases hb : segBracket xLog xT p q
      · simp only [yAtXLoop, if_pos hb, Option.some_inj] at hs
        exact ⟨(p, q), by simp, hb, hs.symm⟩
      · simp only [yAtXLoop, if_neg hb] at hs
        obtain ⟨pq, hpq, hbr, hv⟩ := ih hs
        refine ⟨pq, ?_, hbr, hv⟩
        simp only [List.tail_cons, List.zip_cons_cons]
        simp only [List.tail_cons] at hpq
        exact List.mem_cons_of_mem _ hpq

/-- In log mode a value at or above the clamp floor transforms to its plain
base-10 logarithm. -/
theorem tVal_true_of_ge (v : ℝ) (hv : EPS ≤ v) : tVal v true = Real.logb 10 v := by
  simp [tVal, max_eq_right hv]

/-- Ten to the real power two. -/
theorem pow_ten_two : (10 : ℝ) ^ (2 : ℝ) = 100 := by
  rw [show (2 : ℝ) = ((2 : ℕ) : ℝ) by norm_num, Real.rpow_natCast]
  norm_num

/-- Transformed value of 10 on a log axis. -/
theorem tVal_ten : tVal 10 true = 1 := by
  rw [tVal_true_of_ge 10 (by norm_num [EPS])]
  exact logb_of_rpow 1 10 (by rw [Real.rpow_one])

/-- Transformed value of 100 on a log axis. -/
theorem tVal_hundred : tVal 100 true = 2 := by
  rw [tVal_true_of_ge 100 (by norm_num [EPS])]
  exact logb_of_rpow 2 100 pow_ten_two.symm

/-- Transformed value of 1000 on a log axis. -/
theorem tVal_thousand : tVal 1000 true = 3 := by
  rw [tVal_true_of_ge 1000 (by norm_num [EPS])]
  refine logb_of_rpow 3 1000 ?_
  rw [show (3 : ℝ) = ((3 : ℕ) : ℝ) by norm_num, Real.rpow_natCast]
  norm_num

/-- Transformed value of 5 on a log axis lies below 1. -/
theorem tVal_five_lt_one : tVal 5 true < 1 := by
  rw [tVal_true_of_ge 5 (by norm_num [EPS])]
  have h := Real.logb_lt_logb (show (1:ℝ) < 10 by norm_num)
    (show (0:ℝ) < 5 by norm_num) (show (5:ℝ) < 10 by norm_num)
  rwa [logb_of_rpow 1 10 (by rw [Real.rpow_one])] at h

/-- On log-log axes the two-point identity-line series hits 100 at 100. -/
theorem yAtX_identity_at_100 :
    yAtX true true [⟨10, 10⟩, ⟨1000, 1000⟩] 100 = some 100 := by
  have hbr : segBracket true (tVal 100 true) ⟨10, 10⟩ ⟨1000, 1000⟩ := by
    unfold segBracket
    norm_num [tVal_ten, tVal_hundred, tVal_thousand]
  unfold yAtX
  rw [if_neg (by simp)]
  unfold yAtXLoop
  rw [if_pos hbr]
  unfold segInterp
  norm_num [tVal_ten, tVal_hundred, tVal_thousand, invT, pow_ten_two]

/-- On log-log axes a target left of the series range yields no value. -/
theorem yAtX_none_at_5 :
    yAtX true true [⟨10, 10⟩, ⟨1000, 1000⟩] 5 = none := by
  have hnb : ¬ segBracket true (tVal 5 true) ⟨10, 10⟩ ⟨1000, 1000⟩ := by
    unfold segBracket
    have h5 := tVal_five_lt_one
    rintro (⟨h1, _⟩ | ⟨h3, _⟩)
    · have h1a : (1 : ℝ) ≤ tVal 5 true := by rw [← tVal_ten]; exact h1
      linarith
    · have h3a : (3 : ℝ) ≤ tVal 5 true := by rw [← tVal_thousand]; exact h3
      linarith
  unfold yAtX
  rw [if_neg (by simp)]
  unfold yAtXLoop
  rw [if_neg hnb]
  rfl

/-- C3. Piecewise-linear interpolation contract of `yAtX`: the lookup is
`none` exactly when the list has fewer than 2 points or the transformed
target falls outside every consecutive segment (no extrapolation); any
returned value is the log-aware linear interpolation on some bracketing
segment mapped back to real units; and on log-log axes the two-point series
`[(10,10),(1000,1000)]` yields `some 100` at `x = 100` and `none` at
`x = 5`. -/
theorem yAtX_interp_spec (xLog yLog : Bool) (pts : List Pt) (xT : ℝ) :
    (yAtX xLog yLog pts xT = none ↔
      pts.length < 2 ∨
        ∀ pq ∈ pts.zip pts.tail, ¬ segBracket xLog (tVal xT xLog) pq.1 pq.2) ∧
    (∀ yv, yAtX xLog yLog pts xT = some yv →
      2 ≤ pts.length ∧ ∃ pq ∈ pts.zip pts.tail,
        segBracket xLog (tVal xT xLog) pq.1 pq.2 ∧
        yv = segInterp xLog yLog (tVal xT xLog) pq.1 pq.2) ∧
    yAtX true true [⟨10, 10⟩, ⟨1000, 1000⟩] 100 = some 100 ∧
    yAtX true true [⟨10, 10⟩, ⟨1000, 1000⟩] 5 = none := by
  refine ⟨?_, ?_, yAtX_identity_at_100, yAtX_none_at_5⟩
  · by_cases hl : pts.length < 2
    · unfold yAtX
      rw [if_pos hl]
      simp [hl]
    · unfold yAtX
      rw [if_neg hl, yAtXLoop_eq_none_iff]
      simp [hl]
  · intro yv hyv
    unfold yAtX at hyv
    by_cases hl : pts.length < 2
    · rw [if_pos hl] at hyv
      exact absurd hyv (by simp)
    · rw [if_neg hl] at hyv
      exact ⟨by omega, yAtXLoop_eq_some _ _ _ _ _ hyv⟩
